import Mathlib

/-!
Verification of the `mouce` mouse-automation core (src/common.rs).

The file embeds the vocabulary types (`MouseButton`, `ScrollDirection`,
`MouseEvent`, `CallbackId`) and the default method bodies of the
`MouseActions` trait (`move_relative`, `click_button`,
`click_button_delayed`) as trace-producing computations over an abstract
backend supplying the primitive operations.  The callback registry of the
platform backends is not among the sources, so it is modelled from the
specification where claims need it.
-/

namespace Mouce

/-- Modelled from the spec: the error taxonomy of section 7
(`src/error.rs` is not among the sources).  The kinds named by the spec are
`NotImplemented`, `PermissionDenied`, `UnhookFailed` and a
platform-injection failure. -/
inductive Error where
  | notImplemented
  | permissionDenied
  | unhookFailed
  | platformInjectionFailure
deriving DecidableEq, Repr

/-- `pub type CallbackId = u8;` — an unsigned 8-bit integer. -/
abbrev CallbackId := Fin 256

/-- `enum MouseButton { Left, Middle, Right }` -/
inductive MouseButton where
  | left
  | middle
  | right
deriving DecidableEq, Repr

/-- `enum ScrollDirection { Up, Down, Right, Left }` -/
inductive ScrollDirection where
  | up
  | down
  | right
  | left
deriving DecidableEq, Repr

/-- `enum MouseEvent` — the five event variants; `i32` coordinates are
embedded as `Int`. -/
inductive MouseEvent where
  | relativeMove (dx dy : Int)
  | absoluteMove (x y : Int)
  | press (b : MouseButton)
  | release (b : MouseButton)
  | scroll (d : ScrollDirection)
deriving DecidableEq, Repr

/-- One observable primitive effect performed by a default method body:
a `get_position` query, a `move_to` injection (with the concrete `usize`
arguments it was invoked with, as `Nat`), a button press or release, or a
`thread::sleep` (duration in nanoseconds, as `Nat`). -/
inductive Effect where
  | getPosition
  | moveTo (x y : Nat)
  | press (b : MouseButton)
  | release (b : MouseButton)
  | sleep (d : Nat)
deriving DecidableEq, Repr

/-- A computation of the trait's default methods: the list of primitive
effects it performed, in order, together with its `Result` value. -/
def Eff (α : Type) : Type := List Effect × Except Error α

/-- Sequencing of `Eff` computations, mirroring Rust's `?` operator: on
`Err` the computation stops (the trace so far is kept), on `Ok` the
continuation runs and its effects are appended. -/
def Eff.bind {α β : Type} : Eff α → (α → Eff β) → Eff β
  | (tr, Except.error e), _ => (tr, Except.error e)
  | (tr, Except.ok a), f => (tr ++ (f a).1, (f a).2)

instance : Monad Eff where
  pure a := ([], Except.ok a)
  bind := Eff.bind

/-- An abstract backend implementing the required primitive operations of
the `MouseActions` trait.  Each primitive is given by the `Result` it
returns when called; the default method bodies are generic over it. -/
structure Backend where
  get_position : Except Error (Int × Int)
  move_to : Nat → Nat → Except Error Unit
  press_button : MouseButton → Except Error Unit
  release_button : MouseButton → Except Error Unit

/-- Calling `self.get_position()`: records the effect, returns the
backend's result. -/
def getPositionOp (m : Backend) : Eff (Int × Int) :=
  ([Effect.getPosition], m.get_position)

/-- Calling `self.move_to(x, y)`. -/
def moveToOp (m : Backend) (x y : Nat) : Eff Unit :=
  ([Effect.moveTo x y], m.move_to x y)

/-- Calling `self.press_button(button)`. -/
def pressButtonOp (m : Backend) (b : MouseButton) : Eff Unit :=
  ([Effect.press b], m.press_button b)

/-- Calling `self.release_button(button)`. -/
def releaseButtonOp (m : Backend) (b : MouseButton) : Eff Unit :=
  ([Effect.release b], m.release_button b)

/-- Calling `std::thread::sleep(delay)`: always succeeds. -/
def sleepOp (d : Nat) : Eff Unit :=
  ([Effect.sleep d], Except.ok ())

/-- Two's-complement wrap of an integer into the `i32` range, the release
semantics of Rust's `+` on `i32`. -/
def wrap32 (n : Int) : Int :=
  (n + 2 ^ 31) % 2 ^ 32 - 2 ^ 31

/-- Rust's checked `i32` addition: `some` of the exact sum when it fits in
`i32`, `none` (an overflow panic in debug builds) otherwise. -/
def i32_add_checked (a b : Int) : Option Int :=
  if -(2 ^ 31) ≤ a + b ∧ a + b < 2 ^ 31 then some (a + b) else none

/-- `n` lies in the value range of `i32`. -/
def i32_in_range (n : Int) : Prop :=
  -(2 ^ 31) ≤ n ∧ n < 2 ^ 31

instance (n : Int) : Decidable (i32_in_range n) := by
  unfold i32_in_range; infer_instance

/-- Rust's `as usize` cast of an `i32` value on a 64-bit target:
sign-extension followed by reinterpretation, i.e. reduction modulo
`2 ^ 64`. -/
def as_usize (n : Int) : Nat :=
  (n % 2 ^ 64).toNat

/-- Default body of `MouseActions::move_relative` (src/common.rs:51-54):
`let (x, y) = self.get_position()?;`
`self.move_to((x + x_offset) as usize, (y + y_offset) as usize)`.
The `i32` additions carry Rust's release (wrapping) semantics. -/
def move_relative (m : Backend) (x_offset y_offset : Int) : Eff Unit := do
  let (x, y) ← getPositionOp m
  moveToOp m (as_usize (wrap32 (x + x_offset))) (as_usize (wrap32 (y + y_offset)))

/-- Default body of `MouseActions::click_button` (src/common.rs:106-109):
`self.press_button(button)?;`
`self.release_button(button)`. -/
def click_button (m : Backend) (b : MouseButton) : Eff Unit := do
  pressButtonOp m b
  releaseButtonOp m b

/-- Default body of `MouseActions::click_button_delayed`
(src/common.rs:124-138): optionally sleep, press, optionally sleep,
release. -/
def click_button_delayed (m : Backend) (b : MouseButton)
    (press_delay release_delay : Option Nat) : Eff Unit := do
  match press_delay with
  | some delay => sleepOp delay
  | none => pure ()
  pressButtonOp m b
  match release_delay with
  | some delay => sleepOp delay
  | none => pure ()
  releaseButtonOp m b

/-- Following the spec's words: `press_button(b)` immediately followed by
`release_button(b)` — the reference computation `click_button` is compared
against. -/
def press_then_release (m : Backend) (b : MouseButton) : Eff Unit := do
  pressButtonOp m b
  releaseButtonOp m b

/-- The trace a `Some`/`None` delay argument contributes: one sleep, or
nothing. -/
def optSleepTrace : Option Nat → List Effect
  | some d => [Effect.sleep d]
  | none => []

/-- Modelled from the spec: the callback registry of the platform backends
(section 4.3; the backend sources are not under src/).  Only the set of
currently registered `CallbackId`s matters to the claims, kept here as a
list of `Nat` ids. -/
abbrev Registry : Type := List Nat

/-- Modelled from the spec: `insert(callback) -> id` "allocates the
smallest currently-unused id in [0, 255]; fails ... if 256 callbacks are
already registered".  The kind of the capacity failure is left unspecified
by the spec, so it is modelled as `none`. -/
def hook (r : Registry) : Option (Nat × Registry) :=
  match (List.range 256).find? (fun i => !List.contains r i) with
  | some id => some (id, id :: r)
  | none => none

/-- Modelled from the spec: `unhook(id)` "removes the callback with the
given id.  Fails with an unhook-failed kind if no callback with that id is
currently registered". -/
def unhook (r : Registry) (id : Nat) : Except Error Registry :=
  if id ∈ r then Except.ok (r.filter (fun x => x ≠ id))
  else Except.error Error.unhookFailed

/-- Modelled from the spec: `unhook_all()` "removes every registered
callback". -/
def unhook_all (_r : Registry) : Registry := []

/-- Registering `n` callbacks in a row: the list of issued ids and the
final registry, or `none` if some registration hits capacity. -/
def hookN : Nat → Registry → Option (List Nat × Registry)
  | 0, r => some ([], r)
  | n + 1, r =>
    match hook r with
    | none => none
    | some (id, r') =>
      match hookN n r' with
      | none => none
      | some (ids, r'') => some (id :: ids, r'')

/-- A backend whose primitives all succeed, reporting position (0, 0). -/
def originBackend : Backend where
  get_position := Except.ok (0, 0)
  move_to := fun _ _ => Except.ok ()
  press_button := fun _ => Except.ok ()
  release_button := fun _ => Except.ok ()

/-- A backend whose primitives all fail. -/
def failBackend : Backend where
  get_position := Except.error Error.notImplemented
  move_to := fun _ _ => Except.error Error.platformInjectionFailure
  press_button := fun _ => Except.error Error.permissionDenied
  release_button := fun _ => Except.error Error.platformInjectionFailure

/-- C7: `MouseButton` is exactly the closed set {Left, Middle, Right},
`ScrollDirection` is exactly {Up, Down, Left, Right}, and every
`MouseEvent` is exactly one of the five variants `RelativeMove`,
`AbsoluteMove`, `Press`, `Release`, `Scroll`. -/
theorem mouse_vocabulary_closed :
    (∀ b : MouseButton,
      b = MouseButton.left ∨ b = MouseButton.middle ∨ b = MouseButton.right) ∧
    (∀ d : ScrollDirection,
      d = ScrollDirection.up ∨ d = ScrollDirection.down ∨
        d = ScrollDirection.left ∨ d = ScrollDirection.right) ∧
    (∀ e : MouseEvent,
      (∃ dx dy, e = MouseEvent.relativeMove dx dy) ∨
      (∃ x y, e = MouseEvent.absoluteMove x y) ∨
      (∃ b, e = MouseEvent.press b) ∨
      (∃ b, e = MouseEvent.release b) ∨
      (∃ d, e = MouseEvent.scroll d)) := by
  refine ⟨fun b => ?_, fun d => ?_, fun e => ?_⟩
  · cases b <;> simp
  · cases d <;> simp
  · cases e <;> simp

/-- C2: `click_button(b)` is observationally equivalent to
`press_button(b)` immediately followed by `release_button(b)` — same
effect trace, same result — and no sleep is ever performed. -/
theorem click_button_is_press_then_release (m : Backend) (b : MouseButton) :
    click_button m b = press_then_release m b ∧
    ∀ d, Effect.sleep d ∉ (click_button m b).1 := by
  refine ⟨rfl, fun d => ?_⟩
  cases h : m.press_button b <;>
    simp [click_button, pressButtonOp, releaseButtonOp, Bind.bind, Eff.bind, h]

/-- C9: `click_button_delayed(b, None, None)` is exactly equal to
`click_button(b)`: both delay branches vanish, leaving press followed by
release with identical error propagation. -/
theorem click_button_delayed_none_none_eq_click_button
    (m : Backend) (b : MouseButton) :
    click_button_delayed m b none none = click_button m b := by
  cases h : m.press_button b <;>
    simp [click_button_delayed, click_button, pressButtonOp, releaseButtonOp,
      Bind.bind, Eff.bind, Pure.pure, h]

/-- C3: when the press succeeds, `click_button_delayed(b, Some d1, Some d2)`
performs exactly sleep d1, press, sleep d2, release, in that order; and in
general each `None` delay argument contributes no sleep at all. -/
theorem click_button_delayed_effect_order (m : Backend) (b : MouseButton)
    (h : m.press_button b = Except.ok ()) :
    (∀ d1 d2 : Nat, (click_button_delayed m b (some d1) (some d2)).1 =
      [Effect.sleep d1, Effect.press b, Effect.sleep d2, Effect.release b]) ∧
    (∀ pd rd, (click_button_delayed m b pd rd).1 =
      optSleepTrace pd ++ [Effect.press b] ++ optSleepTrace rd ++
        [Effect.release b]) := by
  constructor
  · intro d1 d2
    simp [click_button_delayed, sleepOp, pressButtonOp, releaseButtonOp,
      Bind.bind, Eff.bind, h]
  · intro pd rd
    cases pd <;> cases rd <;>
      simp [click_button_delayed, optSleepTrace, sleepOp, pressButtonOp,
        releaseButtonOp, Bind.bind, Eff.bind, Pure.pure, h]

/-- Witness for C3 at a concrete succeeding backend and delays 100, 200. -/
theorem click_button_delayed_effect_order_witness :
    originBackend.press_button MouseButton.left = Except.ok () ∧
    (click_button_delayed originBackend MouseButton.left
        (some 100) (some 200)).1 =
      [Effect.sleep 100, Effect.press MouseButton.left, Effect.sleep 200,
        Effect.release MouseButton.left] :=
  ⟨rfl,
   (click_button_delayed_effect_order originBackend MouseButton.left rfl).1
     100 200⟩

/-- C4: each default composite propagates the first primitive failure
directly: a failing `get_position` makes `move_relative` return that error
with `move_to` never invoked; a failing `press_button` makes
`click_button` and `click_button_delayed` return that error with
`release_button` never invoked and the release delay never slept. -/
theorem composite_error_propagation (m : Backend) (b : MouseButton)
    (dx dy : Int) (e : Error) :
    (m.get_position = Except.error e →
      move_relative m dx dy = ([Effect.getPosition], Except.error e) ∧
      ∀ a c, Effect.moveTo a c ∉ (move_relative m dx dy).1) ∧
    (m.press_button b = Except.error e →
      click_button m b = ([Effect.press b], Except.error e) ∧
      Effect.release b ∉ (click_button m b).1 ∧
      ∀ pd rd,
        click_button_delayed m b pd rd =
          (optSleepTrace pd ++ [Effect.press b], Except.error e) ∧
        Effect.release b ∉ (click_button_delayed m b pd rd).1) := by
  constructor
  · intro h
    constructor
    · simp [move_relative, getPositionOp, Bind.bind, Eff.bind, h]
    · intro a c
      simp [move_relative, getPositionOp, Bind.bind, Eff.bind, h]
  · intro h
    refine ⟨?_, ?_, fun pd rd => ⟨?_, ?_⟩⟩
    · simp [click_button, pressButtonOp, Bind.bind, Eff.bind, h]
    · simp [click_button, pressButtonOp, Bind.bind, Eff.bind, h]
    · cases pd <;> cases rd <;>
        simp [click_button_delayed, optSleepTrace, sleepOp, pressButtonOp,
          Bind.bind, Eff.bind, Pure.pure, h]
    · cases pd <;> cases rd <;>
        simp [click_button_delayed, optSleepTrace, sleepOp, pressButtonOp,
          Bind.bind, Eff.bind, Pure.pure, h]

/-- Witness for C4 at a concrete failing backend. -/
theorem composite_error_propagation_witness :
    failBackend.get_position = Except.error Error.notImplemented ∧
    move_relative failBackend 3 4 =
      ([Effect.getPosition], Except.error Error.notImplemented) ∧
    failBackend.press_button MouseButton.right =
      Except.error Error.permissionDenied ∧
    click_button failBackend MouseButton.right =
      ([Effect.press MouseButton.right], Except.error Error.permissionDenied) ∧
    click_button_delayed failBackend MouseButton.right (some 5) (some 6) =
      ([Effect.sleep 5, Effect.press MouseButton.right],
        Except.error Error.permissionDenied) :=
  ⟨rfl,
   ((composite_error_propagation failBackend MouseButton.right 3 4
       Error.notImplemented).1 rfl).1,
   rfl,
   ((composite_error_propagation failBackend MouseButton.right 3 4
       Error.permissionDenied).2 rfl).1,
   (((composite_error_propagation failBackend MouseButton.right 3 4
       Error.permissionDenied).2 rfl).2.2 (some 5) (some 6)).1⟩

/-- C1 does not hold as stated: from position (0, 0), `move_relative(-1, 0)`
invokes `move_to` with first argument `2 ^ 64 - 1`, which is not the
component-wise sum `0 + (-1)`. -/
theorem move_relative_sum_counterexample :
    (move_relative originBackend (-1) 0).1 =
      [Effect.getPosition, Effect.moveTo (2 ^ 64 - 1) 0] ∧
    ¬ (((2 ^ 64 - 1 : Nat) : Int) = 0 + (-1)) := by
  constructor
  · decide
  · decide

/-- C1 (amended): if `get_position` returns Ok((x, y)) and both sums
`x + dx`, `y + dy` are nonnegative and below `2 ^ 31`, then
`move_relative(dx, dy)` invokes `move_to` with exactly (x+dx, y+dy) and
returns its result. -/
theorem move_relative_composition (m : Backend) (x y dx dy : Int)
    (hpos : m.get_position = Except.ok (x, y))
    (hx0 : 0 ≤ x + dx) (hx1 : x + dx < 2 ^ 31)
    (hy0 : 0 ≤ y + dy) (hy1 : y + dy < 2 ^ 31) :
    move_relative m dx dy =
      ([Effect.getPosition, Effect.moveTo (x + dx).toNat (y + dy).toNat],
        m.move_to (x + dx).toNat (y + dy).toNat) := by
  have hwx : wrap32 (x + dx) = x + dx := by unfold wrap32; omega
  have hwy : wrap32 (y + dy) = y + dy := by unfold wrap32; omega
  have hux : as_usize (x + dx) = (x + dx).toNat := by unfold as_usize; omega
  have huy : as_usize (y + dy) = (y + dy).toNat := by unfold as_usize; omega
  simp [move_relative, getPositionOp, moveToOp, Bind.bind, Eff.bind, hpos,
    hwx, hwy, hux, huy]

/-- Witness for the amended C1 at position (0, 0) and offsets (5, 7). -/
theorem move_relative_composition_witness :
    originBackend.get_position = Except.ok (0, 0) ∧
    move_relative originBackend 5 7 =
      ([Effect.getPosition, Effect.moveTo 5 7], Except.ok ()) := by
  refine ⟨rfl, ?_⟩
  have h := move_relative_composition originBackend 0 0 5 7 rfl
    (by decide) (by decide) (by decide) (by decide)
  simpa using h

/-- C8: when a signed sum is negative (but within i32 range), the default
`move_relative` does not fail: `move_to` is still invoked and its result is
returned, and the `as usize` cast wraps each negative coordinate sum
two's-complement style to `2 ^ 64 + sum`. -/
theorem move_relative_negative_sum_wraps (m : Backend) (x y dx dy : Int)
    (hpos : m.get_position = Except.ok (x, y))
    (hx : i32_in_range (x + dx)) (hy : i32_in_range (y + dy)) :
    move_relative m dx dy =
      ([Effect.getPosition,
        Effect.moveTo (as_usize (x + dx)) (as_usize (y + dy))],
        m.move_to (as_usize (x + dx)) (as_usize (y + dy))) ∧
    (x + dx < 0 → as_usize (x + dx) = (2 ^ 64 + (x + dx)).toNat) ∧
    (y + dy < 0 → as_usize (y + dy) = (2 ^ 64 + (y + dy)).toNat) := by
  obtain ⟨hx0, hx1⟩ := hx
  obtain ⟨hy0, hy1⟩ := hy
  have hwx : wrap32 (x + dx) = x + dx := by unfold wrap32; omega
  have hwy : wrap32 (y + dy) = y + dy := by unfold wrap32; omega
  refine ⟨?_, fun hneg => ?_, fun hneg => ?_⟩
  · simp [move_relative, getPositionOp, moveToOp, Bind.bind, Eff.bind, hpos,
      hwx, hwy]
  · unfold as_usize; omega
  · unfold as_usize; omega

/-- Witness for C8 at position (0, 0) and offsets (-1, -2): `move_to`
receives the wrapped coordinates `2 ^ 64 - 1` and `2 ^ 64 - 2`. -/
theorem move_relative_negative_sum_wraps_witness :
    originBackend.get_position = Except.ok (0, 0) ∧
    i32_in_range (0 + (-1 : Int)) ∧ i32_in_range (0 + (-2 : Int)) ∧
    move_relative originBackend (-1) (-2) =
      ([Effect.getPosition, Effect.moveTo (2 ^ 64 - 1) (2 ^ 64 - 2)],
        Except.ok ()) := by
  refine ⟨rfl, by decide, by decide, ?_⟩
  have h := (move_relative_negative_sum_wraps originBackend 0 0 (-1) (-2)
    rfl (by decide) (by decide)).1
  have e1 : as_usize (0 + (-1 : Int)) = 2 ^ 64 - 1 := by decide
  have e2 : as_usize (0 + (-2 : Int)) = 2 ^ 64 - 2 := by decide
  rw [e1, e2] at h
  exact h

/-- C10: the sums inside the default `move_relative` are i32 additions:
when both lie in the i32 range they are computed exactly (checked addition
succeeds and the wrap is the identity, so `move_to` receives the exact
sums); when a sum leaves the range, the checked addition fails (debug
panic) and the wrapping addition does not compute the mathematical sum. -/
theorem move_relative_i32_arithmetic (m : Backend) (x y dx dy : Int)
    (hpos : m.get_position = Except.ok (x, y)) :
    ((i32_in_range (x + dx) ∧ i32_in_range (y + dy)) →
      i32_add_checked x dx = some (x + dx) ∧
      i32_add_checked y dy = some (y + dy) ∧
      wrap32 (x + dx) = x + dx ∧ wrap32 (y + dy) = y + dy ∧
      move_relative m dx dy =
        ([Effect.getPosition,
          Effect.moveTo (as_usize (x + dx)) (as_usize (y + dy))],
          m.move_to (as_usize (x + dx)) (as_usize (y + dy)))) ∧
    (¬ i32_in_range (x + dx) →
      i32_add_checked x dx = none ∧ wrap32 (x + dx) ≠ x + dx) ∧
    (¬ i32_in_range (y + dy) →
      i32_add_checked y dy = none ∧ wrap32 (y + dy) ≠ y + dy) := by
  refine ⟨fun ⟨hx, hy⟩ => ?_, fun hx => ?_, fun hy => ?_⟩
  · obtain ⟨hx0, hx1⟩ := hx
    obtain ⟨hy0, hy1⟩ := hy
    have hwx : wrap32 (x + dx) = x + dx := by unfold wrap32; omega
    have hwy : wrap32 (y + dy) = y + dy := by unfold wrap32; omega
    refine ⟨?_, ?_, hwx, hwy, ?_⟩
    · unfold i32_add_checked; rw [if_pos ⟨hx0, hx1⟩]
    · unfold i32_add_checked; rw [if_pos ⟨hy0, hy1⟩]
    · simp [move_relative, getPositionOp, moveToOp, Bind.bind, Eff.bind,
        hpos, hwx, hwy]
  · unfold i32_in_range at hx
    constructor
    · unfold i32_add_checked; rw [if_neg hx]
    · unfold wrap32; omega
  · unfold i32_in_range at hy
    constructor
    · unfold i32_add_checked; rw [if_neg hy]
    · unfold wrap32; omega

/-- Witness for C10 at position (0, 0) and offsets (5, 7). -/
theorem move_relative_i32_arithmetic_witness :
    originBackend.get_position = Except.ok (0, 0) ∧
    i32_in_range ((0 : Int) + 5) ∧ i32_in_range ((0 : Int) + 7) ∧
    i32_add_checked 0 5 = some 5 ∧
    move_relative originBackend 5 7 =
      ([Effect.getPosition, Effect.moveTo 5 7], Except.ok ()) := by
  refine ⟨rfl, by decide, by decide, ?_, ?_⟩ <;>
  · have h := (move_relative_i32_arithmetic originBackend 0 0 5 7 rfl).1
      ⟨by decide, by decide⟩
    first
    | simpa using h.1
    | · have h5 := h.2.2.2.2
        have e1 : as_usize ((0 : Int) + 5) = 5 := by decide
        have e2 : as_usize ((0 : Int) + 7) = 7 := by decide
        rw [e1, e2] at h5
        exact h5

/-- A successful `hook` issues an id not already registered and pushes it
onto the registry. -/
theorem hook_fresh {r : Registry} {id : Nat} {r' : Registry}
    (h : hook r = some (id, r')) : id ∉ r ∧ r' = id :: r := by
  unfold hook at h
  cases hf : (List.range 256).find? (fun i => !List.contains r i) with
  | none => rw [hf] at h; cases h
  | some j =>
    rw [hf] at h
    have hp := List.find?_some hf
    simp at h hp
    obtain ⟨rfl, rfl⟩ := h
    exact ⟨hp, rfl⟩

/-- The ids issued by `n` successive `hook` calls are distinct, count `n`,
and are all fresh with respect to the starting registry. -/
theorem hookN_distinct : ∀ (n : Nat) (r : Registry) (ids : List Nat)
    (r' : Registry), hookN n r = some (ids, r') →
    ids.Nodup ∧ ids.length = n ∧ ∀ i ∈ ids, i ∉ r := by
  intro n
  induction n with
  | zero =>
    intro r ids r' h
    simp [hookN] at h
    simp [h.1]
  | succ k ih =>
    intro r ids r' h
    unfold hookN at h
    cases hh : hook r with
    | none => simp [hh] at h
    | some p =>
      obtain ⟨id, r1⟩ := p
      simp only [hh] at h
      cases hk : hookN k r1 with
      | none => simp [hk] at h
      | some q =>
        obtain ⟨ids1, r2⟩ := q
        simp only [hk] at h
        simp at h
        obtain ⟨hids, -⟩ := h
        obtain ⟨hfresh, hr1⟩ := hook_fresh hh
        obtain ⟨hnd, hlen, hmem⟩ := ih r1 ids1 r2 hk
        subst hids hr1
        refine ⟨List.nodup_cons.mpr ⟨fun hc => ?_, hnd⟩, by simp [hlen], ?_⟩
        · exact hmem id hc (List.mem_cons_self id r)
        · intro i hi
          rcases List.mem_cons.mp hi with hieq | hi1
          · exact hieq ▸ hfresh
          · intro hir
            exact hmem i hi1 (List.mem_cons_of_mem id hir)

/-- C5: `unhook` on any id not currently registered fails with
`UnhookFailed` — including ids never issued, ids already removed by a
prior `unhook`, and any id after `unhook_all` has cleared the registry —
and registering N callbacks yields N distinct `CallbackId`s. -/
theorem unhook_failure_and_id_uniqueness :
    (∀ (r : Registry) (id : Nat), id ∉ r →
      unhook r id = Except.error Error.unhookFailed) ∧
    (∀ (r : Registry) (id : Nat) (r' : Registry),
      unhook r id = Except.ok r' →
      unhook r' id = Except.error Error.unhookFailed) ∧
    (∀ (r : Registry) (id : Nat),
      unhook (unhook_all r) id = Except.error Error.unhookFailed) ∧
    (∀ (n : Nat) (ids : List Nat) (r' : Registry),
      hookN n [] = some (ids, r') → ids.Nodup ∧ ids.length = n) := by
  refine ⟨fun r id hid => ?_, fun r id r' h => ?_, fun r id => ?_,
    fun n ids r' h => ?_⟩
  · unfold unhook
    rw [if_neg hid]
  · unfold unhook at h ⊢
    by_cases hid : id ∈ r
    · rw [if_pos hid] at h
      cases h
      rw [if_neg]
      simp
    · rw [if_neg hid] at h
      cases h
  · simp [unhook, unhook_all]
  · obtain ⟨hnd, hlen, -⟩ := hookN_distinct n [] ids r' h
    exact ⟨hnd, hlen⟩

/-- Witness for C5, mirroring the `hook_and_unhook` test: `unhook(5)` on an
empty registry fails, four registrations yield the distinct ids 0..3, and
after `unhook_all` a previously valid id fails to unhook. -/
theorem unhook_failure_and_id_uniqueness_witness :
    (5 : Nat) ∉ ([] : Registry) ∧
    unhook [] 5 = Except.error Error.unhookFailed ∧
    hookN 4 [] = some ([0, 1, 2, 3], [3, 2, 1, 0]) ∧
    ([0, 1, 2, 3] : List Nat).Nodup ∧
    unhook (unhook_all [3, 2, 1, 0]) 3 = Except.error Error.unhookFailed := by
  refine ⟨by decide, unhook_failure_and_id_uniqueness.1 [] 5 (by decide),
    by decide, ?_, unhook_failure_and_id_uniqueness.2.2.1 [3, 2, 1, 0] 3⟩
  exact (unhook_failure_and_id_uniqueness.2.2.2 4 [0, 1, 2, 3] [3, 2, 1, 0]
    (by decide)).1

/-- C6: every `CallbackId` value (the `u8` ids of the trait) lies in
0..255, and a registration never issues an id above 255. -/
theorem callback_id_in_range :
    (∀ c : CallbackId, (c : Nat) ≤ 255) ∧
    (∀ (r : Registry) (id : Nat) (r' : Registry),
      hook r = some (id, r') → id ≤ 255) := by
  constructor
  · intro c
    exact Nat.le_of_lt_succ c.2
  · intro r id r' h
    unfold hook at h
    cases hf : (List.range 256).find? (fun i => !List.contains r i) with
    | none => rw [hf] at h; cases h
    | some j =>
      rw [hf] at h
      simp at h
      have hj := List.mem_range.mp (List.mem_of_find?_eq_some hf)
      omega

/-- Witness for C6: the first registration on an empty registry issues
id 0, which is at most 255. -/
theorem callback_id_in_range_witness :
    hook [] = some (0, [0]) ∧ (0 : Nat) ≤ 255 :=
  ⟨by decide, callback_id_in_range.2 [] 0 [0] (by decide)⟩

end Mouce
